import Mathlib

/-
  Verification of the SCA-SHIELD CSV consolidation scripts.

  The repository holds two consolidation variants:
  * src/SAST/consolidate.py      (csv.reader based, dedups identifiers per file,
                                  classifies on the primary severity only,
                                  sorts the per-file results before writing)
  * src/SAST/old_consolidate.py  (pandas based, chunked reading, no dedup,
                                  falls back to the jfrog severity,
                                  merges chunk results and file results in
                                  completion order)

  Rows and cells are modelled as lists of strings (csv.reader) and lists of
  optional strings (pandas cells, none standing for NaN).  The Python string
  methods used by the scripts (lower, strip, split, replace, startswith,
  substring containment) are embedded below as structurally recursive
  functions on the character data so that every definition evaluates inside
  the kernel.
-/

/-- Model of the Python whitespace test used by str.strip. -/
def pySpace (c : Char) : Bool :=
  c == ' ' || c == '\t' || c == '\n' || c == '\x0d' || c == '\x0b' || c == '\x0c'

/-- Model of Python str.strip on character data: drop whitespace at both ends. -/
def stripData (l : List Char) : List Char :=
  ((l.dropWhile pySpace).reverse.dropWhile pySpace).reverse

/-- Model of Python str.strip. -/
def pyStrip (s : String) : String :=
  ⟨stripData s.data⟩

/-- Model of Python str.lower (ASCII, via Char.toLower). -/
def pyLower (s : String) : String :=
  ⟨s.data.map Char.toLower⟩

/-- Model of Python str.split with a one-character separator. -/
def splitData (d : Char) : List Char → List (List Char)
  | [] => [[]]
  | c :: cs =>
    match splitData d cs with
    | [] => if c == d then [[], []] else [[c]]
    | h :: t => if c == d then [] :: h :: t else (c :: h) :: t

/-- Model of Python str.replace with one-character pattern and replacement. -/
def replaceData (a b : Char) (l : List Char) : List Char :=
  l.map (fun c => if c == a then b else c)

/-- Boolean test that the first list is an initial segment of the second. -/
def beginsWith : List Char → List Char → Bool
  | [], _ => true
  | _ :: _, [] => false
  | p :: ps, c :: cs => p == c && beginsWith ps cs

/-- Model of Python str.startswith. -/
def pyStartsWith (s pat : String) : Bool :=
  beginsWith pat.data s.data

/-- Boolean test that the first list occurs contiguously inside the second. -/
def seqIn (p : List Char) : List Char → Bool
  | [] => beginsWith p []
  | c :: cs => beginsWith p (c :: cs) || seqIn p cs

/-- Model of the Python substring test (pat in s). -/
def pyIn (pat s : String) : Bool :=
  seqIn pat.data s.data

/-- String comparison for sorting: lexicographic order on the underlying
character data, the order Python uses when sorting strings. -/
def strLe (s t : String) : Prop :=
  s.data ≤ t.data

instance : DecidableRel strLe := fun s t =>
  inferInstanceAs (Decidable (s.data ≤ t.data))

/-- The four severity tiers the scripts tally. -/
inductive Tier where
  | critical
  | high
  | medium
  | low
deriving DecidableEq

/-- Per-file tally of the four severity tiers. -/
structure Tally where
  critical : Nat
  high : Nat
  medium : Nat
  low : Nat
deriving DecidableEq

def Tally.zero : Tally := ⟨0, 0, 0, 0⟩

/-- Increment the bucket selected by a classification outcome; no
classification leaves the tally unchanged. -/
def Tally.bump (t : Tally) : Option Tier → Tally
  | some Tier.critical => { t with critical := t.critical + 1 }
  | some Tier.high => { t with high := t.high + 1 }
  | some Tier.medium => { t with medium := t.medium + 1 }
  | some Tier.low => { t with low := t.low + 1 }
  | none => t

def Tally.add (t u : Tally) : Tally :=
  ⟨t.critical + u.critical, t.high + u.high, t.medium + u.medium, t.low + u.low⟩

/-- Sum of the four tally buckets. -/
def Tally.sum (t : Tally) : Nat :=
  t.critical + t.high + t.medium + t.low

/-- One detail row emitted by either script: identifier field, severity,
jfrog severity, cvss v3, cwe and fix version strings. -/
structure ScanRecord where
  cve : String
  severity : String
  jfrog_sev : String
  cvss : String
  cwe : String
  fix_ver : String
deriving DecidableEq

/-- The if/elif substring chain both scripts run over a lowered severity
string: critical, high, medium, low are tested in that order, first match
wins, otherwise no tier. -/
def classifyChain (s : String) : Option Tier :=
  if pyIn "critical" s then some Tier.critical
  else if pyIn "high" s then some Tier.high
  else if pyIn "medium" s then some Tier.medium
  else if pyIn "low" s then some Tier.low
  else none

namespace Consolidate

/- Embedding of src/SAST/consolidate.py. -/

def REQUIRED_COLUMNS : List String :=
  ["cves", "severity", "jfrog severity", "cvss v3", "cwe", "fix version"]

/-- Helper for normalize_headers: index of the last header whose stripped,
lowered text equals the key (Python dict comprehension, later keys win). -/
def headerIdx (key : String) : Nat → List String → Option Nat
  | _, [] => none
  | i, h :: t =>
    match headerIdx key (i + 1) t with
    | some j => some j
    | none => if pyLower (pyStrip h) = key then some i else none

/-- normalize_headers: maps a lowered, stripped header name to its column
index (lines 43 to 44 of consolidate.py). -/
def normalize_headers (headers : List String) (key : String) : Option Nat :=
  headerIdx key 0 headers

/-- split_cves (lines 47 to 55): replace semicolons by commas, split on
commas, keep the stripped tokens that start with the exact text CVE- . -/
def split_cves (raw : String) : List String :=
  if raw = "" then []
  else
    (splitData ',' (replaceData ';' ',' raw.data)).filterMap (fun tok =>
      let t := pyStrip ⟨tok⟩
      if pyStartsWith t "CVE-" then some t else none)

/-- safe_get (lines 58 to 60): read a cell through the resolved column map,
returning the empty string when the column is absent or the row is short. -/
def safe_get (row : List String) (col_map : String → Option Nat)
    (col_name : String) : String :=
  match col_map col_name with
  | none => ""
  | some idx => if idx < row.length then pyStrip (row.getD idx "") else ""

/-- The severity classification of consolidate.py (lines 100 to 108): the
substring chain over the lowered primary severity only. -/
def classify (severity : String) : Option Tier :=
  classifyChain (pyLower severity)

/-- Loop state of process_csv_file: identifiers seen so far, the severity
tally and the detail list. -/
structure PState where
  seen : List String
  counts : Tally
  details : List ScanRecord
deriving DecidableEq

/-- Body of the inner loop over the identifiers of one row (lines 94 to
117): an already seen identifier is skipped, a new one is recorded, its
severity classified into the tally and the detail row appended. -/
def insertRecord (st : PState) (r : ScanRecord) : PState :=
  if r.cve ∈ st.seen then st
  else
    { seen := r.cve :: st.seen,
      counts := st.counts.bump (classify r.severity),
      details := st.details ++ [r] }

/-- Field extraction for one row (lines 84 to 92): every identifier token of
the cves cell yields one candidate record carrying the fields of that row. -/
def extractRow (headers : List String) (row : List String) : List ScanRecord :=
  let cmap := normalize_headers headers
  let severity := safe_get row cmap "severity"
  let jfrog_sev := safe_get row cmap "jfrog severity"
  let cvss := safe_get row cmap "cvss v3"
  let cwe := safe_get row cmap "cwe"
  let fix_ver := safe_get row cmap "fix version"
  (split_cves (safe_get row cmap "cves")).map (fun cve =>
    ⟨cve, severity, jfrog_sev, cvss, cwe, fix_ver⟩)

/-- One iteration of the row loop of process_csv_file. -/
def stepRow (headers : List String) (st : PState) (row : List String) : PState :=
  (extractRow headers row).foldl insertRecord st

/-- The row loop of process_csv_file over the data rows of a file. -/
def processRows (headers : List String) (body : List (List String)) : PState :=
  body.foldl (stepRow headers) ⟨[], Tally.zero, []⟩

/-- One per-file result: filename, tally, detail list. -/
def FileRes : Type := String × Tally × List ScanRecord

instance : DecidableEq FileRes := by
  unfold FileRes; infer_instance

/-- process_csv_file (lines 64 to 122).  The input file is none when the
file cannot be opened or read at all (the except branch at lines 119 to 121
fires before any row was processed); otherwise it is the list of parsed
lines, the first being the header row.  An input with no lines, or an empty
header row, hits the Empty CSV branch at lines 74 to 76. -/
def process_csv_file (filename : String)
    (file : Option (List (List String))) : FileRes :=
  match file with
  | none => (filename, Tally.zero, [])
  | some [] => (filename, Tally.zero, [])
  | some (headers :: body) =>
    if headers = [] then (filename, Tally.zero, [])
    else
      let st := processRows headers body
      (filename, st.counts, st.details)

/-- Order used by write_excel: sorted(results) sorts the result tuples,
whose first component is the filename (line 165). -/
def resLE (a b : FileRes) : Prop :=
  strLe a.1 b.1

instance : DecidableRel resLE := fun a b => by
  unfold resLE; infer_instance

instance : IsTotal FileRes resLE :=
  ⟨fun a b => le_total a.1.data b.1.data⟩

instance : IsTrans FileRes resLE :=
  ⟨fun _ _ _ hab hbc => le_trans hab hbc⟩

/-- The block order produced by write_excel: the results sorted by
filename. -/
def sortResults (results : List FileRes) : List FileRes :=
  results.insertionSort resLE

/-- A whole run of consolidate.py over a list of files: each file is
processed (in whatever order the workers pick them up) and write_excel
sorts the collected results. -/
def run (files : List (String × Option (List (List String)))) : List FileRes :=
  sortResults (files.map (fun p => process_csv_file p.1 p.2))

/- Specification-side definitions used to state the dedup claims; they are
compared against the loop above by theorem, not assumed. -/

/-- All candidate records of a file in original row order, before any
dedup. -/
def extractAll (headers : List String) (body : List (List String)) :
    List ScanRecord :=
  body.flatMap (extractRow headers)

/-- First-occurrence filter: keep a record only when its identifier was not
kept before and is not in the starting seen set. -/
def firstOccurFrom (seen : List String) : List ScanRecord → List ScanRecord
  | [] => []
  | r :: rs =>
    if r.cve ∈ seen then firstOccurFrom seen rs
    else r :: firstOccurFrom (r.cve :: seen) rs

def firstOccur (l : List ScanRecord) : List ScanRecord :=
  firstOccurFrom [] l

/-- The seen set after running the loop over a record list. -/
def seenAfter (seen : List String) : List ScanRecord → List String
  | [] => seen
  | r :: rs =>
    if r.cve ∈ seen then seenAfter seen rs
    else seenAfter (r.cve :: seen) rs

/-- Tally obtained by classifying every record of a list. -/
def tallyOf (l : List ScanRecord) : Tally :=
  l.foldl (fun t r => t.bump (classify r.severity)) Tally.zero

end Consolidate

namespace OldConsolidate

/- Embedding of src/SAST/old_consolidate.py.  A pandas cell is an optional
string, none standing for NaN; a row is the list of cells in header order. -/

/-- The key under which normalize_cols stores a column: the lowered then
stripped column name (line 55, c.lower().strip()). -/
def canonKey (c : String) : String :=
  pyStrip (pyLower c)

/-- normalize_cols (lines 53 to 55): maps the canonical key of a column
name to the actual column name; a dict comprehension, so for duplicate keys
the later column wins. -/
def normalize_cols (cols : List String) (key : String) : Option String :=
  match cols with
  | [] => none
  | c :: t =>
    match normalize_cols t key with
    | some r => some r
    | none => if canonKey c = key then some c else none

/-- The alias table needed_keys (lines 100 to 107). -/
def candidates : String → List String
  | "cves" => ["cves", "cve", "cve(s)"]
  | "severity" => ["severity"]
  | "jfrog_severity" => ["jfrog severity", "jfrog_severity", "jfrogseverity"]
  | "cvss_v3" => ["cvss v3", "cvss_v3", "cvssv3"]
  | "cwe" => ["cwe"]
  | "fix_version" => ["fix version", "fix_version", "fixversion", "fix"]
  | _ => []

/-- Resolution of one canonical field to an actual column name (lines 110
to 118 and 130 to 142): the first candidate alias found in the column map
wins; a falsy hit (empty name) is skipped like in the Python truth test. -/
def resolve_col (headers : List String) (canonical : String) : Option String :=
  (candidates canonical).findSome? (fun cand =>
    match normalize_cols headers (pyLower cand) with
    | some real => if real = "" then none else some real
    | none => none)

/-- Index of the first column carrying a given name, the pandas label
lookup used by df_row.get. -/
def firstIdx (c : String) : List String → Option Nat
  | [] => none
  | h :: t => if h = c then some 0 else (firstIdx c t).map (· + 1)

/-- safe_get (lines 58 to 66): look the key up in the column map again,
return the empty string on a missing or falsy column or a NaN cell, else
the stripped cell text. -/
def safe_get (headers : List String) (row : List (Option String))
    (key : String) : String :=
  match normalize_cols headers (pyLower key) with
  | none => ""
  | some real =>
    if real = "" then ""
    else
      match firstIdx real headers with
      | none => ""
      | some i =>
        match row.getD i none with
        | none => ""
        | some v => pyStrip v

/-- Field read of process_chunk (lines 146 to 151): the resolved column
name, or the empty string when unresolved, is handed to safe_get. -/
def getField (headers : List String) (row : List (Option String))
    (canonical : String) : String :=
  safe_get headers row ((resolve_col headers canonical).getD "")

/-- The classification of process_chunk (lines 154 to 174): the substring
chain over the stripped, lowered primary severity, and only when no tier
matched, the same chain over the stripped, lowered jfrog severity. -/
def classifyOld (severity jfrog_sev : String) : Option Tier :=
  match classifyChain (pyLower (pyStrip severity)) with
  | some t => some t
  | none => classifyChain (pyLower (pyStrip jfrog_sev))

/-- One detail row of process_chunk (lines 144 to 176): the raw cves field
and the other five fields, one record per data row, no identifier
splitting and no dedup. -/
def extract_row (headers : List String) (row : List (Option String)) :
    ScanRecord :=
  { cve := getField headers row "cves",
    severity := getField headers row "severity",
    jfrog_sev := getField headers row "jfrog_severity",
    cvss := getField headers row "cvss_v3",
    cwe := getField headers row "cwe",
    fix_ver := getField headers row "fix_version" }

/-- process_chunk (lines 125 to 178): walk the rows of the chunk in order,
classify each row once into the local tally and append one detail row per
data row. -/
def process_chunk (headers : List String) (rows : List (List (Option String))) :
    List ScanRecord × Tally :=
  rows.foldl
    (fun acc row =>
      let r := extract_row headers row
      (acc.1 ++ [r], acc.2.bump (classifyOld r.severity r.jfrog_sev)))
    ([], Tally.zero)

/-- Helper for chunksOf, structurally recursive on a fuel bound: every
step consumes at least one row, so a fuel equal to the row count is always
enough. -/
def chunksGo (csize : Nat) : Nat → List (List (Option String)) →
    List (List (List (Option String)))
  | _, [] => []
  | 0, _ :: _ => []
  | fuel + 1, r :: rs =>
    (r :: rs.take (csize - 1)) :: chunksGo csize fuel (rs.drop (csize - 1))

/-- Partition of the data rows into chunks of a given size, the chunksize
splitting done by the pandas reader (CHUNK_SIZE, line 38, default 5000;
the chunk size is the configurable row count per chunk). -/
def chunksOf (csize : Nat) (rows : List (List (Option String))) :
    List (List (List (Option String))) :=
  chunksGo csize rows.length rows

/-- The chunked part of process_csv_file (lines 189 to 205): the chunk
tasks are submitted in chunk order, but their results are consumed with
as_completed, so the details are concatenated and the counts summed in the
order the tasks happen to complete.  The completion order is the list of
chunk indices in the order their futures finish. -/
def process_csv_file (headers : List String)
    (rows : List (List (Option String))) (csize : Nat)
    (completion : List Nat) : List ScanRecord × Tally :=
  let chunks := chunksOf csize rows
  let picked := completion.filterMap (fun i => chunks.get? i)
  (picked.flatMap (fun c => (process_chunk headers c).1),
   picked.foldl (fun t c => Tally.add t (process_chunk headers c).2) Tally.zero)

/-- The writer of consolidate_all_csvs (lines 257 to 312): results are
appended as their file futures complete and the blocks are written in that
arrival order, one block per result, headed by the filename. -/
def blockOrder (results : List Consolidate.FileRes) : List String :=
  results.map (fun r => r.1)

/-- Outcome of reading one file in process_csv_file of old_consolidate.py
(lines 72 to 232).  headerFail is the path where the header read and its
fallback full read both raise (lines 85 to 96): the source returns counts
as an empty dict, which the writer renders through four zero-defaulted
lookups, and an empty detail list.  chunkFail is the path where the
chunked read and its fallback full read both raise (lines 189 to 218):
the source returns the zero-initialized severity_counts, untouched on
this path because the as_completed loop never ran before the exception,
and the empty detail list literal.  The ok outcome carries the parsed
header, the data rows, the chunk size and the completion order of the
chunk futures. -/
inductive ReadOutcome where
  | headerFail
  | chunkFail
  | ok (headers : List String) (rows : List (List (Option String)))
      (csize : Nat) (completion : List Nat)
deriving DecidableEq

/-- File-level view of process_csv_file of old_consolidate.py: the
filename together with the tally and detail list of its read outcome.
Both double-failure outcomes contribute the zero-rendered tally and an
empty detail list; neither raises past the function. -/
def process_file (filename : String) :
    ReadOutcome → String × Tally × List ScanRecord
  | ReadOutcome.headerFail => (filename, Tally.zero, [])
  | ReadOutcome.chunkFail => (filename, Tally.zero, [])
  | ReadOutcome.ok headers rows csize completion =>
    let r := process_csv_file headers rows csize completion
    (filename, r.2, r.1)

/-- consolidate_all_csvs (lines 253 to 263): one future per file, each
always yielding one result because process_csv_file catches its own
failures; results are appended in arrival order, which is the order of
the given file list. -/
def consolidate_all (files : List (String × ReadOutcome)) :
    List Consolidate.FileRes :=
  files.map (fun p => process_file p.1 p.2)

end OldConsolidate

/-
  Theorems.  Helper lemmas come first, the claim theorems follow.
-/

theorem tally_add_zero (t : Tally) : t.add Tally.zero = t := by
  cases t; simp [Tally.add, Tally.zero]

theorem tally_zero_add (t : Tally) : Tally.zero.add t = t := by
  cases t; simp [Tally.add, Tally.zero]

theorem tally_bump_eq_add (t : Tally) (o : Option Tier) :
    t.bump o = t.add (Tally.zero.bump o) := by
  cases t
  cases o with
  | none => simp [Tally.bump, Tally.add, Tally.zero]
  | some tier => cases tier <;> simp [Tally.bump, Tally.add, Tally.zero]

theorem tally_add_assoc (a b c : Tally) :
    (a.add b).add c = a.add (b.add c) := by
  cases a; cases b; cases c
  simp [Tally.add, Nat.add_assoc]

theorem tally_sum_zero : Tally.zero.sum = 0 := rfl

theorem tally_sum_add (a b : Tally) : (a.add b).sum = a.sum + b.sum := by
  cases a; cases b
  simp [Tally.add, Tally.sum]
  omega

theorem tally_sum_bump (t : Tally) (o : Option Tier) :
    (t.bump o).sum = t.sum + (if o.isSome then 1 else 0) := by
  cases t
  cases o with
  | none => simp [Tally.bump, Tally.sum]
  | some tier => cases tier <;> simp [Tally.bump, Tally.sum] <;> omega

/-- Claim C1: the chunk merge of old_consolidate.py consumes chunk results
with as_completed, so the detail rows of a file split into two one-row
chunks come out in completion order; when chunk 1 completes before chunk 0
the record sequence differs from the same file processed as a single
chunk, even though the tallies agree and the completion order is a
permutation of the chunk indices.  This contradicts the stated requirement
that chunk results be re-sequenced by chunk index before merging. -/
theorem C1_completion_order_merge :
    (OldConsolidate.process_csv_file ["cves", "severity"]
        [[some "CVE-2024-0001", some "High"], [some "CVE-2024-0002", some "Low"]]
        1 [1, 0]).1
      ≠ (OldConsolidate.process_csv_file ["cves", "severity"]
        [[some "CVE-2024-0001", some "High"], [some "CVE-2024-0002", some "Low"]]
        2 [0]).1
    ∧ (OldConsolidate.process_csv_file ["cves", "severity"]
        [[some "CVE-2024-0001", some "High"], [some "CVE-2024-0002", some "Low"]]
        1 [1, 0]).2
      = (OldConsolidate.process_csv_file ["cves", "severity"]
        [[some "CVE-2024-0001", some "High"], [some "CVE-2024-0002", some "Low"]]
        2 [0]).2
    ∧ ([1, 0] : List Nat).Perm (List.range 2) := by
  refine ⟨by decide, by decide, by decide⟩

/-- Claim C2, counterexample: process_chunk of old_consolidate.py never
deduplicates; a file whose identifier CVE-2024-0001 appears in three rows
with differing severities yields three detail entries for it, and every
row increments a tally bucket. -/
theorem C2_old_no_dedup_cex :
    ((OldConsolidate.process_chunk ["cves", "severity"]
        [[some "CVE-2024-0001", some "High"],
         [some "CVE-2024-0001", some "Critical"],
         [some "CVE-2024-0001", some "Low"]]).1.filter
        (fun r => r.cve == "CVE-2024-0001")).length = 3
    ∧ (OldConsolidate.process_chunk ["cves", "severity"]
        [[some "CVE-2024-0001", some "High"],
         [some "CVE-2024-0001", some "Critical"],
         [some "CVE-2024-0001", some "Low"]]).2 = ⟨1, 1, 0, 1⟩ := by
  refine ⟨by decide, by decide⟩

/-- Claim C3, counterexample: consolidate.py classifies on the primary
severity only; a record with empty primary severity and secondary severity
High is appended to the detail list but tallied under no tier, so it is
not tallied under High. -/
theorem C3_no_fallback_cex :
    (Consolidate.process_csv_file "f.csv"
        (some [["cves", "severity", "jfrog severity"],
               ["CVE-2024-0001", "", "High"]])).2.1 = Tally.zero
    ∧ (Consolidate.process_csv_file "f.csv"
        (some [["cves", "severity", "jfrog severity"],
               ["CVE-2024-0001", "", "High"]])).2.2.length = 1 := by
  refine ⟨by decide, by decide⟩

/-- Claim C4, counterexample: consolidate.py resolves only the exact
header name cves (case-insensitively); a file whose identifier column is
named CVE(s) resolves to nothing, so the same data row yields no record,
unlike the file whose column is named cves. -/
theorem C4_alias_cex :
    (Consolidate.process_csv_file "f.csv"
        (some [["CVE(s)", "severity"], ["CVE-2024-0001", "High"]])).2.2 = []
    ∧ (Consolidate.process_csv_file "f.csv"
        (some [["cves", "severity"], ["CVE-2024-0001", "High"]])).2.2.length = 1
    ∧ Consolidate.process_csv_file "f.csv"
        (some [["CVE(s)", "severity"], ["CVE-2024-0001", "High"]])
      ≠ Consolidate.process_csv_file "f.csv"
        (some [["cves", "severity"], ["CVE-2024-0001", "High"]]) := by
  refine ⟨by decide, by decide, by decide⟩

/-- Claim C5, counterexample: consolidate_all_csvs of old_consolidate.py
writes one block per result in the arrival order of the file futures; when
the result of b.csv arrives before the result of a.csv the block order is
not lexicographic and differs from the opposite arrival order. -/
theorem C5_completion_order_cex :
    OldConsolidate.blockOrder
        [("b.csv", Tally.zero, []), ("a.csv", Tally.zero, [])]
      ≠ OldConsolidate.blockOrder
        [("a.csv", Tally.zero, []), ("b.csv", Tally.zero, [])]
    ∧ ¬ List.Sorted strLe (OldConsolidate.blockOrder
        [("b.csv", Tally.zero, []), ("a.csv", Tally.zero, [])]) := by
  refine ⟨by decide, by decide⟩

/-- Claim C6, counterexample: in old_consolidate.py two rows carrying the
same identifier with severity High both increment the tally, so the tally
sum 2 exceeds the single distinct identifier of the detail list. -/
theorem C6_old_tally_exceeds_cex :
    ¬ ((OldConsolidate.process_chunk ["cves", "severity"]
          [[some "CVE-2024-0001", some "High"],
           [some "CVE-2024-0001", some "High"]]).2.sum
        ≤ (((OldConsolidate.process_chunk ["cves", "severity"]
          [[some "CVE-2024-0001", some "High"],
           [some "CVE-2024-0001", some "High"]]).1.map
            (fun r => r.cve)).dedup).length)
    ∧ (OldConsolidate.process_chunk ["cves", "severity"]
          [[some "CVE-2024-0001", some "High"],
           [some "CVE-2024-0001", some "High"]]).2.sum = 2 := by
  refine ⟨by decide, by decide⟩

/-- Claim C7: field extraction through the resolved schema is total with
empty-string default, in both scripts: in consolidate.py safe_get yields
the empty string when the canonical field resolved to no column or the row
is shorter than the resolved position, and in old_consolidate.py safe_get
yields the empty string when the key is not in the column map or the row
is shorter than the looked-up label position. -/
theorem C7_safe_get_total :
    (∀ (row : List String) (cmap : String → Option Nat) (name : String),
        cmap name = none → Consolidate.safe_get row cmap name = "")
    ∧ (∀ (row : List String) (cmap : String → Option Nat) (name : String)
        (i : Nat), cmap name = some i → row.length ≤ i →
        Consolidate.safe_get row cmap name = "")
    ∧ (∀ (headers : List String) (row : List (Option String)) (key : String),
        OldConsolidate.normalize_cols headers (pyLower key) = none →
        OldConsolidate.safe_get headers row key = "")
    ∧ (∀ (headers : List String) (row : List (Option String)) (key : String)
        (real : String) (i : Nat),
        OldConsolidate.normalize_cols headers (pyLower key) = some real →
        OldConsolidate.firstIdx real headers = some i → row.length ≤ i →
        OldConsolidate.safe_get headers row key = "") := by
  refine ⟨?_, ?_, ?_, ?_⟩
  · intro row cmap name h
    simp [Consolidate.safe_get, h]
  · intro row cmap name i h hlen
    simp [Consolidate.safe_get, h, Nat.not_lt.mpr hlen]
  · intro headers row key h
    simp [OldConsolidate.safe_get, h]
  · intro headers row key real i h hidx hlen
    by_cases hre : real = ""
    · simp [OldConsolidate.safe_get, h, hre]
    · simp [OldConsolidate.safe_get, h, hre, hidx,
        List.getElem?_eq_none hlen]

/-- Witness for C7 at concrete inputs. -/
theorem C7_safe_get_total_witness :
    Consolidate.safe_get ["x"] (Consolidate.normalize_headers ["h"]) "absent" = ""
    ∧ Consolidate.safe_get ["x"] (Consolidate.normalize_headers ["h", "k"]) "k" = ""
    ∧ OldConsolidate.safe_get ["h"] [some "x"] "absent" = ""
    ∧ OldConsolidate.safe_get ["h", "k"] [some "x"] "k" = "" := by
  refine ⟨?_, ?_, ?_, ?_⟩
  · exact C7_safe_get_total.1 ["x"] (Consolidate.normalize_headers ["h"])
      "absent" (by decide)
  · exact C7_safe_get_total.2.1 ["x"] (Consolidate.normalize_headers ["h", "k"])
      "k" 1 (by decide) (by decide)
  · exact C7_safe_get_total.2.2.1 ["h"] [some "x"] "absent" (by decide)
  · exact C7_safe_get_total.2.2.2 ["h", "k"] [some "x"] "k" "k" 1
      (by decide) (by decide) (by decide)

/-- Claim C8: a file that is unreadable or entirely unparsable even after
the fallback full read contributes a zero tally and an empty detail list
without aborting the run, in both scripts.  For consolidate.py the input
none models an exception raised before any row was processed; for
old_consolidate.py both double-failure paths, the header read whose
fallback full read also fails and the chunked read whose fallback full
read also fails, return the zero-rendered counts and empty details.  Each
run still keeps exactly one result per file. -/
theorem C8_error_file_empty_result :
    (∀ name : String,
        Consolidate.process_csv_file name none = (name, Tally.zero, []))
    ∧ (∀ name : String,
        OldConsolidate.process_file name OldConsolidate.ReadOutcome.headerFail
          = (name, Tally.zero, [])
        ∧ OldConsolidate.process_file name OldConsolidate.ReadOutcome.chunkFail
          = (name, Tally.zero, []))
    ∧ (∀ (files : List (String × Option (List (List String)))) (name : String),
        (name, (none : Option (List (List String)))) ∈ files →
        ((name, Tally.zero, ([] : List ScanRecord)) ∈ Consolidate.run files
          ∧ (Consolidate.run files).length = files.length))
    ∧ (∀ (files : List (String × OldConsolidate.ReadOutcome)) (name : String)
        (o : OldConsolidate.ReadOutcome),
        (o = OldConsolidate.ReadOutcome.headerFail
          ∨ o = OldConsolidate.ReadOutcome.chunkFail) →
        (name, o) ∈ files →
        ((name, Tally.zero, ([] : List ScanRecord))
            ∈ OldConsolidate.consolidate_all files
          ∧ (OldConsolidate.consolidate_all files).length = files.length)) := by
  refine ⟨fun name => rfl, fun name => ⟨rfl, rfl⟩, ?_, ?_⟩
  · intro files name hmem
    constructor
    · have h1 : (name, Tally.zero, ([] : List ScanRecord)) ∈
          files.map (fun p => Consolidate.process_csv_file p.1 p.2) := by
        have h2 := List.mem_map_of_mem
          (fun p => Consolidate.process_csv_file p.1 p.2) hmem
        simpa using h2
      exact ((List.perm_insertionSort Consolidate.resLE _).mem_iff).mpr h1
    · calc (Consolidate.run files).length
          = (files.map (fun p => Consolidate.process_csv_file p.1 p.2)).length :=
            (List.perm_insertionSort Consolidate.resLE _).length_eq
        _ = files.length := List.length_map _ _
  · intro files name o ho hmem
    constructor
    · have h1 : OldConsolidate.process_file name o
          ∈ OldConsolidate.consolidate_all files := by
        have h2 := List.mem_map_of_mem
          (fun p => OldConsolidate.process_file p.1 p.2) hmem
        simpa [OldConsolidate.consolidate_all] using h2
      rcases ho with ho | ho <;> rw [ho] at h1 <;> exact h1
    · simp [OldConsolidate.consolidate_all]

/-- Witness for C8: runs with one unreadable and one good file for
consolidate.py, and with both double-failure outcomes for
old_consolidate.py. -/
theorem C8_error_file_empty_result_witness :
    Consolidate.process_csv_file "bad.csv" none = ("bad.csv", Tally.zero, [])
    ∧ OldConsolidate.process_file "bad.csv"
        OldConsolidate.ReadOutcome.headerFail = ("bad.csv", Tally.zero, [])
    ∧ ("bad.csv", Tally.zero, ([] : List ScanRecord)) ∈ Consolidate.run
        [("bad.csv", none), ("ok.csv", some [["cves"], ["CVE-2024-0001"]])]
    ∧ (Consolidate.run
        [("bad.csv", none), ("ok.csv", some [["cves"], ["CVE-2024-0001"]])]).length
      = 2
    ∧ ("bad.csv", Tally.zero, ([] : List ScanRecord))
        ∈ OldConsolidate.consolidate_all
          [("bad.csv", OldConsolidate.ReadOutcome.headerFail),
           ("ugly.csv", OldConsolidate.ReadOutcome.chunkFail)]
    ∧ (OldConsolidate.consolidate_all
        [("bad.csv", OldConsolidate.ReadOutcome.headerFail),
         ("ugly.csv", OldConsolidate.ReadOutcome.chunkFail)]).length = 2 := by
  refine ⟨C8_error_file_empty_result.1 "bad.csv",
    (C8_error_file_empty_result.2.1 "bad.csv").1, ?_, ?_, ?_, ?_⟩
  · exact (C8_error_file_empty_result.2.2.1
      [("bad.csv", none), ("ok.csv", some [["cves"], ["CVE-2024-0001"]])]
      "bad.csv" (by decide)).1
  · exact (C8_error_file_empty_result.2.2.1
      [("bad.csv", none), ("ok.csv", some [["cves"], ["CVE-2024-0001"]])]
      "bad.csv" (by decide)).2
  · exact (C8_error_file_empty_result.2.2.2
      [("bad.csv", OldConsolidate.ReadOutcome.headerFail),
       ("ugly.csv", OldConsolidate.ReadOutcome.chunkFail)]
      "bad.csv" OldConsolidate.ReadOutcome.headerFail (Or.inl rfl)
      (by decide)).1
  · exact (C8_error_file_empty_result.2.2.2
      [("bad.csv", OldConsolidate.ReadOutcome.headerFail),
       ("ugly.csv", OldConsolidate.ReadOutcome.chunkFail)]
      "bad.csv" OldConsolidate.ReadOutcome.headerFail (Or.inl rfl)
      (by decide)).2

/-- Claim C9: a file with no header row at all (no parsed lines) hits the
Empty CSV warning branch and yields the zero tally and empty detail list,
and it still appears as a result of the run, one block per file. -/
theorem C9_empty_file_block :
    (∀ name : String,
        Consolidate.process_csv_file name (some []) = (name, Tally.zero, []))
    ∧ ∀ (files : List (String × Option (List (List String)))) (name : String),
        (name, some ([] : List (List String))) ∈ files →
        ((name, Tally.zero, ([] : List ScanRecord)) ∈ Consolidate.run files
          ∧ (Consolidate.run files).length = files.length) := by
  constructor
  · intro name; rfl
  · intro files name hmem
    constructor
    · have h1 : (name, Tally.zero, ([] : List ScanRecord)) ∈
          files.map (fun p => Consolidate.process_csv_file p.1 p.2) := by
        have h2 := List.mem_map_of_mem
          (fun p => Consolidate.process_csv_file p.1 p.2) hmem
        simpa using h2
      exact ((List.perm_insertionSort Consolidate.resLE _).mem_iff).mpr h1
    · calc (Consolidate.run files).length
          = (files.map (fun p => Consolidate.process_csv_file p.1 p.2)).length :=
            (List.perm_insertionSort Consolidate.resLE _).length_eq
        _ = files.length := List.length_map _ _

/-- Witness for C9: a run with one empty and one good file. -/
theorem C9_empty_file_block_witness :
    Consolidate.process_csv_file "empty.csv" (some []) = ("empty.csv", Tally.zero, [])
    ∧ ("empty.csv", Tally.zero, ([] : List ScanRecord)) ∈ Consolidate.run
        [("empty.csv", some []), ("ok.csv", some [["cves"], ["CVE-2024-0001"]])]
    ∧ (Consolidate.run
        [("empty.csv", some []), ("ok.csv", some [["cves"], ["CVE-2024-0001"]])]).length
      = 2 := by
  refine ⟨C9_empty_file_block.1 "empty.csv", ?_, ?_⟩
  · exact (C9_empty_file_block.2
      [("empty.csv", some []), ("ok.csv", some [["cves"], ["CVE-2024-0001"]])]
      "empty.csv" (by decide)).1
  · exact (C9_empty_file_block.2
      [("empty.csv", some []), ("ok.csv", some [["cves"], ["CVE-2024-0001"]])]
      "empty.csv" (by decide)).2

/-- Claim C10: every token kept by split_cves starts with the exact
uppercase text CVE- ; the lowercase token cve-2021-1 is discarded, while
uppercase tokens survive comma or semicolon splitting and trimming. -/
theorem C10_cve_prefix_case_sensitive :
    (∀ (raw t : String), t ∈ Consolidate.split_cves raw →
        pyStartsWith t "CVE-" = true)
    ∧ Consolidate.split_cves "cve-2021-1" = []
    ∧ Consolidate.split_cves "CVE-2021-1; cve-2021-2,CVE-2021-3"
      = ["CVE-2021-1", "CVE-2021-3"] := by
  refine ⟨?_, by decide, by decide⟩
  intro raw t ht
  unfold Consolidate.split_cves at ht
  by_cases hraw : raw = ""
  · simp [hraw] at ht
  · simp only [if_neg hraw, List.mem_filterMap] at ht
    obtain ⟨tok, _, htok⟩ := ht
    by_cases hpre : pyStartsWith (pyStrip ⟨tok⟩) "CVE-" = true
    · simp only [hpre, if_true] at htok
      cases htok
      exact hpre
    · simp [hpre] at htok

/-- Witness for C10 at a concrete kept token. -/
theorem C10_cve_prefix_case_sensitive_witness :
    pyStartsWith "CVE-2021-1" "CVE-" = true
    ∧ Consolidate.split_cves "cve-2021-1" = [] :=
  ⟨C10_cve_prefix_case_sensitive.1 "CVE-2021-1" "CVE-2021-1" (by decide),
   C10_cve_prefix_case_sensitive.2.1⟩

theorem tallyOf_foldl (l : List ScanRecord) :
    ∀ t : Tally,
      l.foldl (fun acc r => acc.bump (Consolidate.classify r.severity)) t
        = t.add (Consolidate.tallyOf l) := by
  induction l with
  | nil => intro t; simp [Consolidate.tallyOf, tally_add_zero]
  | cons r rs ih =>
    intro t
    have hrr : Consolidate.tallyOf (r :: rs)
        = (Tally.zero.bump (Consolidate.classify r.severity)).add
            (Consolidate.tallyOf rs) := by
      unfold Consolidate.tallyOf
      simp only [List.foldl_cons]
      exact ih _
    simp only [List.foldl_cons]
    rw [ih, hrr, tally_bump_eq_add t, tally_add_assoc]

theorem tallyOf_cons (r : ScanRecord) (rs : List ScanRecord) :
    Consolidate.tallyOf (r :: rs)
      = (Tally.zero.bump (Consolidate.classify r.severity)).add
          (Consolidate.tallyOf rs) := by
  unfold Consolidate.tallyOf
  simp only [List.foldl_cons]
  exact tallyOf_foldl rs _

theorem foldl_insertRecord_spec (recs : List ScanRecord) :
    ∀ st : Consolidate.PState,
      recs.foldl Consolidate.insertRecord st =
        ⟨Consolidate.seenAfter st.seen recs,
         st.counts.add
           (Consolidate.tallyOf (Consolidate.firstOccurFrom st.seen recs)),
         st.details ++ Consolidate.firstOccurFrom st.seen recs⟩ := by
  induction recs with
  | nil =>
    intro st
    cases st
    simp [Consolidate.seenAfter, Consolidate.firstOccurFrom,
      Consolidate.tallyOf, tally_add_zero]
  | cons r rs ih =>
    intro st
    by_cases h : r.cve ∈ st.seen
    · simp only [List.foldl_cons, Consolidate.insertRecord, if_pos h,
        Consolidate.seenAfter, Consolidate.firstOccurFrom]
      exact ih st
    · simp only [List.foldl_cons, Consolidate.insertRecord, if_neg h,
        Consolidate.seenAfter, Consolidate.firstOccurFrom]
      rw [ih]
      simp only [tallyOf_cons, tally_bump_eq_add st.counts, tally_add_assoc,
        List.append_assoc, List.singleton_append]

theorem processRows_eq_foldl (headers : List String) (body : List (List String)) :
    ∀ st : Consolidate.PState,
      body.foldl (Consolidate.stepRow headers) st
        = (Consolidate.extractAll headers body).foldl Consolidate.insertRecord st := by
  induction body with
  | nil => intro st; rfl
  | cons row rows ih =>
    intro st
    have hsplit : Consolidate.extractAll headers (row :: rows)
        = Consolidate.extractRow headers row ++ Consolidate.extractAll headers rows := by
      simp [Consolidate.extractAll]
    simp only [List.foldl_cons, hsplit, List.foldl_append]
    exact ih _

theorem processRows_spec (headers : List String) (body : List (List String)) :
    (Consolidate.processRows headers body).details
        = Consolidate.firstOccur (Consolidate.extractAll headers body)
      ∧ (Consolidate.processRows headers body).counts
        = Consolidate.tallyOf
            (Consolidate.firstOccur (Consolidate.extractAll headers body)) := by
  unfold Consolidate.processRows Consolidate.firstOccur
  rw [processRows_eq_foldl headers body, foldl_insertRecord_spec]
  simp [tally_zero_add]

theorem firstOccurFrom_nodup (l : List ScanRecord) :
    ∀ seen : List String,
      ((Consolidate.firstOccurFrom seen l).map (fun r => r.cve)).Nodup
        ∧ ∀ x ∈ (Consolidate.firstOccurFrom seen l).map (fun r => r.cve),
            x ∉ seen := by
  induction l with
  | nil => intro seen; simp [Consolidate.firstOccurFrom]
  | cons r rs ih =>
    intro seen
    by_cases h : r.cve ∈ seen
    · simpa [Consolidate.firstOccurFrom, h] using ih seen
    · have ih2 := ih (r.cve :: seen)
      constructor
      · simp only [Consolidate.firstOccurFrom, if_neg h, List.map_cons,
          List.nodup_cons]
        refine ⟨fun hmem => (ih2.2 _ hmem) (List.mem_cons_self _ _), ih2.1⟩
      · intro x hx
        simp only [Consolidate.firstOccurFrom, if_neg h, List.map_cons,
          List.mem_cons] at hx
        rcases hx with hx | hx
        · subst hx; exact h
        · intro hxs
          exact (ih2.2 _ hx) (List.mem_cons_of_mem _ hxs)

theorem tally_sum_tallyOf (l : List ScanRecord) :
    (Consolidate.tallyOf l).sum
      = (l.filter (fun r => (Consolidate.classify r.severity).isSome)).length := by
  induction l with
  | nil => simp [Consolidate.tallyOf, Tally.sum, Tally.zero]
  | cons r rs ih =>
    have hb : (Tally.zero.bump (Consolidate.classify r.severity)).sum
        = if (Consolidate.classify r.severity).isSome then 1 else 0 := by
      rw [tally_sum_bump]
      simp [tally_sum_zero]
    rw [tallyOf_cons, tally_sum_add, hb, ih]
    by_cases hc : (Consolidate.classify r.severity).isSome
    · simp [List.filter_cons, hc, Nat.add_comm]
    · simp [List.filter_cons, hc]

/-- Claim C2, amended to consolidate.py: the detail list of a processed
file is exactly the first-occurrence filter of the flat per-row record
extraction, so each distinct identifier yields exactly one entry carrying
the fields of its first occurrence in original row order; the tally equals
the classification tally of that deduplicated detail list, so dropped
later rows increment nothing; and the identifiers of the detail list are
pairwise distinct. -/
theorem C2_dedup_first_occurrence :
    ∀ (headers : List String) (body : List (List String)),
      (Consolidate.processRows headers body).details
          = Consolidate.firstOccur (Consolidate.extractAll headers body)
        ∧ (Consolidate.processRows headers body).counts
          = Consolidate.tallyOf ((Consolidate.processRows headers body).details)
        ∧ ((Consolidate.processRows headers body).details.map
            (fun r => r.cve)).Nodup := by
  intro headers body
  obtain ⟨hd, hc⟩ := processRows_spec headers body
  refine ⟨hd, ?_, ?_⟩
  · rw [hd, hc]
  · rw [hd]
    exact (firstOccurFrom_nodup _ []).1

/-- Claim C6, amended to consolidate.py: the sum of the four tally counts
is at most the number of distinct identifiers of the detail list, with
equality when every detail record classifies into one of the four known
tiers. -/
theorem C6_tally_le_distinct :
    ∀ (headers : List String) (body : List (List String)),
      ((Consolidate.processRows headers body).counts).sum
          ≤ (((Consolidate.processRows headers body).details.map
              (fun r => r.cve)).dedup).length
        ∧ ((∀ r ∈ (Consolidate.processRows headers body).details,
              (Consolidate.classify r.severity).isSome = true) →
            ((Consolidate.processRows headers body).counts).sum
              = (((Consolidate.processRows headers body).details.map
                  (fun r => r.cve)).dedup).length) := by
  intro headers body
  obtain ⟨hd, hc⟩ := processRows_spec headers body
  have hnodup : ((Consolidate.processRows headers body).details.map
      (fun r => r.cve)).Nodup := by
    rw [hd]
    exact (firstOccurFrom_nodup _ []).1
  have hded : ((Consolidate.processRows headers body).details.map
        (fun r => r.cve)).dedup
      = (Consolidate.processRows headers body).details.map (fun r => r.cve) :=
    List.dedup_eq_self.mpr hnodup
  have hcounts : (Consolidate.processRows headers body).counts
      = Consolidate.tallyOf ((Consolidate.processRows headers body).details) := by
    rw [hc, hd]
  constructor
  · rw [hcounts, hded, tally_sum_tallyOf, List.length_map]
    exact List.length_filter_le _ _
  · intro hall
    rw [hcounts, hded, tally_sum_tallyOf, List.length_map,
      List.filter_eq_self.mpr hall]

/-- Witness for C6 at a concrete single-row file where the record
classifies, so the bound holds with equality. -/
theorem C6_tally_le_distinct_witness :
    ((Consolidate.processRows ["cves", "severity"]
        [["CVE-2024-0001", "High"]]).counts).sum
        ≤ (((Consolidate.processRows ["cves", "severity"]
            [["CVE-2024-0001", "High"]]).details.map (fun r => r.cve)).dedup).length
      ∧ ((Consolidate.processRows ["cves", "severity"]
          [["CVE-2024-0001", "High"]]).counts).sum
        = (((Consolidate.processRows ["cves", "severity"]
            [["CVE-2024-0001", "High"]]).details.map (fun r => r.cve)).dedup).length :=
  ⟨(C6_tally_le_distinct ["cves", "severity"] [["CVE-2024-0001", "High"]]).1,
   (C6_tally_le_distinct ["cves", "severity"] [["CVE-2024-0001", "High"]]).2
     (by decide)⟩

theorem sorted_nodup_perm_eq :
    ∀ l₁ l₂ : List Consolidate.FileRes, l₁.Perm l₂ →
      List.Sorted Consolidate.resLE l₁ → List.Sorted Consolidate.resLE l₂ →
      (l₁.map (fun r => r.1)).Nodup → l₁ = l₂ := by
  intro l₁
  induction l₁ with
  | nil =>
    intro l₂ hp _ _ _
    exact (List.Perm.eq_nil hp.symm).symm
  | cons a t₁ ih =>
    intro l₂ hp hs₁ hs₂ hn
    cases l₂ with
    | nil => exact absurd (List.Perm.eq_nil hp) (by simp)
    | cons b t₂ =>
      have hs₁m := List.sorted_cons.mp hs₁
      have hs₂m := List.sorted_cons.mp hs₂
      have hn' : (a.1 ∉ t₁.map (fun r => r.1)) ∧ (t₁.map (fun r => r.1)).Nodup := by
        rw [List.map_cons, List.nodup_cons] at hn
        exact hn
      have hab : a = b := by
        have hbmem : b ∈ a :: t₁ := hp.symm.subset (List.mem_cons_self b t₂)
        rcases List.mem_cons.mp hbmem with hb | hb
        · exact hb.symm
        · have h1 : a.1.data ≤ b.1.data := hs₁m.1 b hb
          have hamem : a ∈ b :: t₂ := hp.subset (List.mem_cons_self a t₁)
          rcases List.mem_cons.mp hamem with ha | ha
          · exact ha
          · have h2 : b.1.data ≤ a.1.data := hs₂m.1 a ha
            have hdata : a.1.data = b.1.data := le_antisymm h1 h2
            have hfst : a.1 = b.1 := congrArg String.mk hdata
            exfalso
            apply hn'.1
            rw [hfst]
            exact List.mem_map_of_mem (fun r => r.1) hb
      subst hab
      have ht := ih t₂ hp.cons_inv hs₁m.2 hs₂m.2 hn'.2
      rw [ht]

/-- Claim C5, amended to consolidate.py: write_excel sorts the collected
results, so for result collections with pairwise distinct filenames the
written block sequence is independent of the arrival permutation of the
workers, is sorted by filename, and holds exactly one block per file. -/
theorem C5_sorted_blocks :
    ∀ rs₁ rs₂ : List Consolidate.FileRes,
      rs₁.Perm rs₂ → (rs₁.map (fun r => r.1)).Nodup →
      Consolidate.sortResults rs₁ = Consolidate.sortResults rs₂
        ∧ List.Sorted Consolidate.resLE (Consolidate.sortResults rs₁)
        ∧ (Consolidate.sortResults rs₁).length = rs₁.length := by
  intro rs₁ rs₂ hp hn
  have hs₁ : List.Sorted Consolidate.resLE (Consolidate.sortResults rs₁) :=
    List.sorted_insertionSort Consolidate.resLE rs₁
  have hs₂ : List.Sorted Consolidate.resLE (Consolidate.sortResults rs₂) :=
    List.sorted_insertionSort Consolidate.resLE rs₂
  have hperm : (Consolidate.sortResults rs₁).Perm (Consolidate.sortResults rs₂) :=
    ((List.perm_insertionSort _ rs₁).trans hp).trans
      (List.perm_insertionSort _ rs₂).symm
  have hn' : ((Consolidate.sortResults rs₁).map (fun r => r.1)).Nodup := by
    have hmap := (List.perm_insertionSort Consolidate.resLE rs₁).map (fun r => r.1)
    exact hmap.nodup_iff.mpr hn
  exact ⟨sorted_nodup_perm_eq _ _ hperm hs₁ hs₂ hn', hs₁,
    (List.perm_insertionSort _ _).length_eq⟩

/-- Witness for C5: two arrival orders of the same two results sort to the
same sorted two-block sequence. -/
theorem C5_sorted_blocks_witness :
    Consolidate.sortResults
        [("b.csv", Tally.zero, []), ("a.csv", Tally.zero, [])]
      = Consolidate.sortResults
        [("a.csv", Tally.zero, []), ("b.csv", Tally.zero, [])]
    ∧ List.Sorted Consolidate.resLE (Consolidate.sortResults
        [("b.csv", Tally.zero, []), ("a.csv", Tally.zero, [])])
    ∧ (Consolidate.sortResults
        [("b.csv", Tally.zero, []), ("a.csv", Tally.zero, [])]).length = 2 := by
  have h := C5_sorted_blocks
    [("b.csv", Tally.zero, []), ("a.csv", Tally.zero, [])]
    [("a.csv", Tally.zero, []), ("b.csv", Tally.zero, [])]
    (by decide) (by decide)
  exact ⟨h.1, h.2.1, h.2.2⟩

/-- Claim C3, amended to old_consolidate.py: its chunk processor tests the
substrings critical, high, medium, low in that priority order on the
stripped, lowered primary severity, and only when none matches repeats the
same chain on the stripped, lowered jfrog severity; a row with empty
primary severity and secondary severity High is tallied under High. -/
theorem C3_secondary_fallback :
    (∀ severity jfrog_sev : String,
        classifyChain (pyLower (pyStrip severity)) = none →
        OldConsolidate.classifyOld severity jfrog_sev
          = classifyChain (pyLower (pyStrip jfrog_sev)))
    ∧ (∀ s : String,
        (pyIn "critical" s = true → classifyChain s = some Tier.critical)
        ∧ (pyIn "critical" s = false → pyIn "high" s = true →
            classifyChain s = some Tier.high)
        ∧ (pyIn "critical" s = false → pyIn "high" s = false →
            pyIn "medium" s = true → classifyChain s = some Tier.medium)
        ∧ (pyIn "critical" s = false → pyIn "high" s = false →
            pyIn "medium" s = false → pyIn "low" s = true →
            classifyChain s = some Tier.low)
        ∧ (pyIn "critical" s = false → pyIn "high" s = false →
            pyIn "medium" s = false → pyIn "low" s = false →
            classifyChain s = none))
    ∧ (OldConsolidate.process_chunk ["cves", "severity", "jfrog severity"]
          [[some "CVE-2024-0001", some "", some "High"]]).2
        = ⟨0, 1, 0, 0⟩ := by
  refine ⟨?_, ?_, by decide⟩
  · intro severity jfrog_sev h
    unfold OldConsolidate.classifyOld
    rw [h]
  · intro s
    refine ⟨?_, ?_, ?_, ?_, ?_⟩
    · intro h1
      simp [classifyChain, h1]
    · intro h1 h2
      simp [classifyChain, h1, h2]
    · intro h1 h2 h3
      simp [classifyChain, h1, h2, h3]
    · intro h1 h2 h3 h4
      simp [classifyChain, h1, h2, h3, h4]
    · intro h1 h2 h3 h4
      simp [classifyChain, h1, h2, h3, h4]

/-- Witness for C3 at the concrete empty primary severity and secondary
severity High. -/
theorem C3_secondary_fallback_witness :
    OldConsolidate.classifyOld "" "High"
      = classifyChain (pyLower (pyStrip "High"))
    ∧ classifyChain "high" = some Tier.high :=
  ⟨C3_secondary_fallback.1 "" "High" (by decide),
   (C3_secondary_fallback.2.1 "high").2.1 (by decide) (by decide)⟩

theorem normalize_cols_cons_ne (y : String) (rest : List String) (key : String)
    (h : OldConsolidate.canonKey y ≠ key) :
    OldConsolidate.normalize_cols (y :: rest) key
      = OldConsolidate.normalize_cols rest key := by
  simp only [OldConsolidate.normalize_cols]
  cases h2 : OldConsolidate.normalize_cols rest key <;> simp [h2, h]

theorem normalize_cols_none (rest : List String) (key : String)
    (h : ∀ c ∈ rest, OldConsolidate.canonKey c ≠ key) :
    OldConsolidate.normalize_cols rest key = none := by
  induction rest with
  | nil => rfl
  | cons c t ih =>
    rw [normalize_cols_cons_ne c t key (h c (List.mem_cons_self c t))]
    exact ih (fun u hu => h u (List.mem_cons_of_mem _ hu))

theorem normalize_cols_last (y : String) (rest : List String) (key : String)
    (hy : OldConsolidate.canonKey y = key)
    (h : ∀ c ∈ rest, OldConsolidate.canonKey c ≠ key) :
    OldConsolidate.normalize_cols (y :: rest) key = some y := by
  simp only [OldConsolidate.normalize_cols]
  rw [normalize_cols_none rest key h]
  simp [hy]

theorem normalize_cols_mem (rest : List String) :
    ∀ (key r : String), OldConsolidate.normalize_cols rest key = some r →
      r ∈ rest ∧ OldConsolidate.canonKey r = key := by
  induction rest with
  | nil => intro key r h; simp [OldConsolidate.normalize_cols] at h
  | cons c t ih =>
    intro key r h
    simp only [OldConsolidate.normalize_cols] at h
    cases h2 : OldConsolidate.normalize_cols t key with
    | some r2 =>
      rw [h2] at h
      simp only [Option.some.injEq] at h
      subst h
      obtain ⟨hm, hk⟩ := ih key r2 h2
      exact ⟨List.mem_cons_of_mem _ hm, hk⟩
    | none =>
      rw [h2] at h
      by_cases hc : OldConsolidate.canonKey c = key
      · simp only [hc, if_true, Option.some.injEq] at h
        subst h
        exact ⟨List.mem_cons_self _ _, hc⟩
      · simp [hc] at h

theorem firstIdx_cons_ne (c y : String) (l : List String) (h : y ≠ c) :
    OldConsolidate.firstIdx c (y :: l)
      = (OldConsolidate.firstIdx c l).map (· + 1) := by
  simp [OldConsolidate.firstIdx, h]

theorem firstIdx_cons_self (c : String) (l : List String) :
    OldConsolidate.firstIdx c (c :: l) = some 0 := by
  simp [OldConsolidate.firstIdx]

theorem resolve_col_mem (headers : List String) (k real : String)
    (h : OldConsolidate.resolve_col headers k = some real) :
    real ∈ headers ∧ real ≠ ""
      ∧ ∃ cand ∈ OldConsolidate.candidates k,
          OldConsolidate.canonKey real = pyLower cand := by
  unfold OldConsolidate.resolve_col at h
  obtain ⟨cand, hcand, hf⟩ := List.exists_of_findSome?_eq_some h
  cases h2 : OldConsolidate.normalize_cols headers (pyLower cand) with
  | none => rw [h2] at hf; simp at hf
  | some r2 =>
    rw [h2] at hf
    by_cases hre : r2 = ""
    · simp [hre] at hf
    · simp only [hre, if_false, Option.some.injEq] at hf
      subst hf
      obtain ⟨hm, hk⟩ := normalize_cols_mem headers (pyLower cand) r2 h2
      exact ⟨hm, hre, cand, hcand, hk⟩

theorem normalize_cols_middle_ne (pre : List String) (y : String)
    (post : List String) (key : String)
    (h : OldConsolidate.canonKey y ≠ key) :
    OldConsolidate.normalize_cols (pre ++ y :: post) key
      = OldConsolidate.normalize_cols (pre ++ post) key := by
  induction pre with
  | nil => simpa using normalize_cols_cons_ne y post key h
  | cons c t ih =>
    simp only [List.cons_append, OldConsolidate.normalize_cols, List.append_eq]
    rw [ih]

theorem normalize_cols_middle_hit (pre : List String) (y : String)
    (post : List String) (key : String)
    (hy : OldConsolidate.canonKey y = key)
    (hpost : ∀ c ∈ post, OldConsolidate.canonKey c ≠ key) :
    (∀ c ∈ pre, OldConsolidate.canonKey c ≠ key) →
    OldConsolidate.normalize_cols (pre ++ y :: post) key = some y := by
  induction pre with
  | nil =>
    intro _
    simpa using normalize_cols_last y post key hy hpost
  | cons c t ih =>
    intro hpre
    simp only [List.cons_append, OldConsolidate.normalize_cols, List.append_eq]
    rw [ih (fun u hu => hpre u (List.mem_cons_of_mem _ hu))]

theorem firstIdx_congr_mid (c y z : String) (pre post : List String)
    (hy : y ≠ c) (hz : z ≠ c) :
    OldConsolidate.firstIdx c (pre ++ y :: post)
      = OldConsolidate.firstIdx c (pre ++ z :: post) := by
  induction pre with
  | nil =>
    simp only [List.nil_append]
    rw [firstIdx_cons_ne c y post hy, firstIdx_cons_ne c z post hz]
  | cons h t ih =>
    simp only [List.cons_append, OldConsolidate.firstIdx, List.append_eq]
    rw [ih]

theorem firstIdx_append_self (c : String) (post : List String) :
    ∀ pre : List String, c ∉ pre →
      OldConsolidate.firstIdx c (pre ++ c :: post) = some pre.length := by
  intro pre
  induction pre with
  | nil =>
    intro _
    simpa using firstIdx_cons_self c post
  | cons x t ih =>
    intro h
    have hxc : x ≠ c := by
      intro he
      exact h (by rw [he]; exact List.mem_cons_self c t)
    simp only [List.cons_append]
    rw [firstIdx_cons_ne c x (t ++ c :: post) hxc,
      ih (fun hm => h (List.mem_cons_of_mem _ hm))]
    simp

theorem findSome_resolve_mid (pre : List String) (y : String)
    (post : List String) :
    ∀ cands : List String,
      (∀ cand ∈ cands, OldConsolidate.canonKey y ≠ pyLower cand) →
      cands.findSome? (fun cand =>
        match OldConsolidate.normalize_cols (pre ++ y :: post) (pyLower cand) with
        | some real => if real = "" then none else some real
        | none => none)
      = cands.findSome? (fun cand =>
        match OldConsolidate.normalize_cols (pre ++ post) (pyLower cand) with
        | some real => if real = "" then none else some real
        | none => none) := by
  intro cands
  induction cands with
  | nil => intro _; rfl
  | cons cand cs ih =>
    intro h
    rw [List.findSome?_cons, List.findSome?_cons,
      normalize_cols_middle_ne pre y post (pyLower cand)
        (h cand (List.mem_cons_self _ _))]
    cases OldConsolidate.normalize_cols (pre ++ post) (pyLower cand) with
    | none =>
      simp only []
      exact ih (fun u hu => h u (List.mem_cons_of_mem _ hu))
    | some real =>
      by_cases hre : real = ""
      · simp only [hre, if_true]
        exact ih (fun u hu => h u (List.mem_cons_of_mem _ hu))
      · simp [hre]

theorem resolve_col_mid_skip (pre : List String) (y : String)
    (post : List String) (k : String)
    (h : ∀ cand ∈ OldConsolidate.candidates k,
        OldConsolidate.canonKey y ≠ pyLower cand) :
    OldConsolidate.resolve_col (pre ++ y :: post) k
      = OldConsolidate.resolve_col (pre ++ post) k := by
  unfold OldConsolidate.resolve_col
  exact findSome_resolve_mid pre y post (OldConsolidate.candidates k) h

theorem safe_get_mid_congr (y z : String) (pre post : List String)
    (row : List (Option String)) (key : String)
    (h1 : OldConsolidate.canonKey y ≠ pyLower key)
    (h2 : OldConsolidate.canonKey z ≠ pyLower key)
    (h3 : ∀ r ∈ pre ++ post, r ≠ y ∧ r ≠ z) :
    OldConsolidate.safe_get (pre ++ y :: post) row key
      = OldConsolidate.safe_get (pre ++ z :: post) row key := by
  unfold OldConsolidate.safe_get
  rw [normalize_cols_middle_ne pre y post _ h1,
    normalize_cols_middle_ne pre z post _ h2]
  cases hres : OldConsolidate.normalize_cols (pre ++ post) (pyLower key) with
  | none => rfl
  | some real =>
    obtain ⟨hmem, _⟩ := normalize_cols_mem (pre ++ post) (pyLower key) real hres
    by_cases hre : real = ""
    · simp [hre]
    · simp only [if_neg hre]
      obtain ⟨hny, hnz⟩ := h3 real hmem
      rw [firstIdx_congr_mid real y z pre post (Ne.symm hny) (Ne.symm hnz)]

theorem getField_mid_congr (x : String) (pre post : List String)
    (row : List (Option String)) (k : String)
    (hcx : OldConsolidate.canonKey x = "cve(s)")
    (hrest : ∀ c ∈ pre ++ post,
        OldConsolidate.canonKey c ∉ OldConsolidate.candidates "cves")
    (hk : ∀ cand ∈ OldConsolidate.candidates k,
        pyLower cand ≠ "cve(s)" ∧ pyLower cand ≠ "cves") :
    OldConsolidate.getField (pre ++ x :: post) row k
      = OldConsolidate.getField (pre ++ "cves" :: post) row k := by
  have hcz : OldConsolidate.canonKey "cves" = "cves" := by decide
  have hresx := resolve_col_mid_skip pre x post k (fun cand hc => by
    rw [hcx]
    exact fun he => (hk cand hc).1 he.symm)
  have hresz := resolve_col_mid_skip pre "cves" post k (fun cand hc => by
    rw [hcz]
    exact fun he => (hk cand hc).2 he.symm)
  have h3 : ∀ r ∈ pre ++ post, r ≠ x ∧ r ≠ "cves" := by
    intro r hr
    constructor
    · intro he
      apply hrest r hr
      rw [he, hcx]
      decide
    · intro he
      apply hrest r hr
      rw [he]
      decide
  unfold OldConsolidate.getField
  rw [hresx, hresz]
  cases hr : OldConsolidate.resolve_col (pre ++ post) k with
  | none =>
    simp only [Option.getD_none]
    apply safe_get_mid_congr x "cves" pre post row ""
    · rw [hcx]; decide
    · rw [hcz]; decide
    · exact h3
  | some real =>
    simp only [Option.getD_some]
    obtain ⟨hmem, hne, cand, hcand, hkey⟩ := resolve_col_mem (pre ++ post) k real hr
    have hlr1 : pyLower real ≠ "cve(s)" := by
      intro he
      apply hrest real hmem
      unfold OldConsolidate.canonKey
      rw [he]
      decide
    have hlr2 : pyLower real ≠ "cves" := by
      intro he
      apply hrest real hmem
      unfold OldConsolidate.canonKey
      rw [he]
      decide
    apply safe_get_mid_congr x "cves" pre post row real
    · rw [hcx]; exact fun he => hlr1 he.symm
    · rw [hcz]; exact fun he => hlr2 he.symm
    · exact h3

theorem getField_cves_mid_congr (x : String) (pre post : List String)
    (row : List (Option String)) (hx : pyLower x = "cve(s)")
    (hrest : ∀ c ∈ pre ++ post,
        OldConsolidate.canonKey c ∉ OldConsolidate.candidates "cves") :
    OldConsolidate.getField (pre ++ x :: post) row "cves"
      = OldConsolidate.getField (pre ++ "cves" :: post) row "cves" := by
  have hcx : OldConsolidate.canonKey x = "cve(s)" := by
    unfold OldConsolidate.canonKey
    rw [hx]
    decide
  have hxne : x ≠ "" := by
    intro he
    rw [he] at hx
    exact absurd hx (by decide)
  have hrest1 : ∀ c ∈ pre ++ post, OldConsolidate.canonKey c ≠ "cves" :=
    fun c hc he => hrest c hc (by rw [he]; decide)
  have hrest2 : ∀ c ∈ pre ++ post, OldConsolidate.canonKey c ≠ "cve" :=
    fun c hc he => hrest c hc (by rw [he]; decide)
  have hrest3 : ∀ c ∈ pre ++ post, OldConsolidate.canonKey c ≠ "cve(s)" :=
    fun c hc he => hrest c hc (by rw [he]; decide)
  have hpre1 : ∀ c ∈ pre, OldConsolidate.canonKey c ≠ "cves" :=
    fun c hc => hrest1 c (List.mem_append_left _ hc)
  have hpost1 : ∀ c ∈ post, OldConsolidate.canonKey c ≠ "cves" :=
    fun c hc => hrest1 c (List.mem_append_right _ hc)
  have hpre3 : ∀ c ∈ pre, OldConsolidate.canonKey c ≠ "cve(s)" :=
    fun c hc => hrest3 c (List.mem_append_left _ hc)
  have hpost3 : ∀ c ∈ post, OldConsolidate.canonKey c ≠ "cve(s)" :=
    fun c hc => hrest3 c (List.mem_append_right _ hc)
  have hl1 : pyLower "cves" = "cves" := by decide
  have hl2 : pyLower "cve" = "cve" := by decide
  have hl3 : pyLower "cve(s)" = "cve(s)" := by decide
  have hcands : OldConsolidate.candidates "cves" = ["cves", "cve", "cve(s)"] := by
    decide
  have hr1 : OldConsolidate.resolve_col (pre ++ x :: post) "cves" = some x := by
    unfold OldConsolidate.resolve_col
    rw [hcands]
    rw [List.findSome?_cons, hl1,
      normalize_cols_middle_ne pre x post "cves" (by rw [hcx]; decide),
      normalize_cols_none (pre ++ post) "cves" hrest1]
    rw [List.findSome?_cons, hl2,
      normalize_cols_middle_ne pre x post "cve" (by rw [hcx]; decide),
      normalize_cols_none (pre ++ post) "cve" hrest2]
    rw [List.findSome?_cons, hl3,
      normalize_cols_middle_hit pre x post "cve(s)" hcx hpost3 hpre3]
    simp [hxne]
  have hr2 : OldConsolidate.resolve_col (pre ++ "cves" :: post) "cves"
      = some "cves" := by
    unfold OldConsolidate.resolve_col
    rw [hcands]
    rw [List.findSome?_cons, hl1,
      normalize_cols_middle_hit pre "cves" post "cves" (by decide) hpost1 hpre1]
    rfl
  have hxpre : x ∉ pre := fun hm =>
    hrest x (List.mem_append_left _ hm) (by rw [hcx]; decide)
  have hcpre : "cves" ∉ pre := fun hm =>
    hrest "cves" (List.mem_append_left _ hm) (by decide)
  unfold OldConsolidate.getField
  rw [hr1, hr2]
  simp only [Option.getD_some]
  unfold OldConsolidate.safe_get
  rw [hx, hl1,
    normalize_cols_middle_hit pre x post "cve(s)" hcx hpost3 hpre3,
    normalize_cols_middle_hit pre "cves" post "cves" (by decide) hpost1 hpre1]
  simp only [if_neg hxne, if_neg (show ¬ ("cves" : String) = "" by decide)]
  rw [firstIdx_append_self x post pre hxpre,
    firstIdx_append_self "cves" post pre hcpre]

theorem extract_row_mid_congr (x : String) (pre post : List String)
    (row : List (Option String)) (hx : pyLower x = "cve(s)")
    (hrest : ∀ c ∈ pre ++ post,
        OldConsolidate.canonKey c ∉ OldConsolidate.candidates "cves") :
    OldConsolidate.extract_row (pre ++ x :: post) row
      = OldConsolidate.extract_row (pre ++ "cves" :: post) row := by
  have hcx : OldConsolidate.canonKey x = "cve(s)" := by
    unfold OldConsolidate.canonKey
    rw [hx]
    decide
  unfold OldConsolidate.extract_row
  rw [getField_cves_mid_congr x pre post row hx hrest,
    getField_mid_congr x pre post row "severity" hcx hrest (by decide),
    getField_mid_congr x pre post row "jfrog_severity" hcx hrest (by decide),
    getField_mid_congr x pre post row "cvss_v3" hcx hrest (by decide),
    getField_mid_congr x pre post row "cwe" hcx hrest (by decide),
    getField_mid_congr x pre post row "fix_version" hcx hrest (by decide)]

/-- Claim C4, amended to old_consolidate.py: its alias table accepts
cve(s) for the identifier field, so a header column whose lowered name is
cve(s), at any column position, resolves to the identifier field exactly
as a column named cves at that position does, producing identical
extraction results for every chunk, provided no other column of the
header is itself an alias of the identifier field. -/
theorem C4_alias_resolution :
    ∀ (pre : List String) (x : String) (post : List String)
      (rows : List (List (Option String))),
      pyLower x = "cve(s)" →
      (∀ c ∈ pre ++ post,
          OldConsolidate.canonKey c ∉ OldConsolidate.candidates "cves") →
      OldConsolidate.process_chunk (pre ++ x :: post) rows
        = OldConsolidate.process_chunk (pre ++ "cves" :: post) rows := by
  intro pre x post rows hx hrest
  unfold OldConsolidate.process_chunk
  apply List.foldl_ext
  intro acc row _
  rw [extract_row_mid_congr x pre post row hx hrest]

/-- Witness for C4: a concrete one-row chunk whose identifier column
named CVE(s) is the second of three columns. -/
theorem C4_alias_resolution_witness :
    OldConsolidate.process_chunk ["severity", "CVE(s)", "cwe"]
        [[some "High", some "CVE-2024-0001", some "CWE-79"]]
      = OldConsolidate.process_chunk ["severity", "cves", "cwe"]
        [[some "High", some "CVE-2024-0001", some "CWE-79"]] :=
  C4_alias_resolution ["severity"] "CVE(s)" ["cwe"]
    [[some "High", some "CVE-2024-0001", some "CWE-79"]] (by decide) (by decide)
